import Mathlib

/-!
Verification of the food-logger webhook core
(`src/food-logger-webhook/src/index.ts`).

The transcript-to-record pipeline of `handleNoteCreated` is embedded
shallowly:

* `sanitize` models the markdown-fence cleanup of lines 177-183
  (`trim`, then `replace(/^` + "```" + `json\s*/, ...)` or the unlabeled
  variant, then `replace(/\s*` + "```" + `$/, ...)`).  Strings are `List Char`;
  the JavaScript whitespace class is modeled by the ASCII whitespace
  characters (both `String.prototype.trim` and `\s` use the same class,
  so the abstraction is uniform).
* `Json` models the values produced by `JSON.parse`; JSON numbers are
  modeled as `Int` (the claims only involve integral values).
* `dispatch` models the shape dispatch of lines 191-230,
  `rowOf` the 12-column row projection of lines 64-77, and
  `pipeline` the whole of `handleNoteCreated` with its two try/catch
  layers.  The external collaborators (OpenAI call, `JSON.parse`,
  Google-Sheets append) are oracle inputs collected in `Caps`; what the
  pipeline did is reported in `RunLog`.
-/

/-- JavaScript whitespace (ASCII part), used by both `trim` and `\s`. -/
def isWs (c : Char) : Bool :=
  c == ' ' || c == '\t' || c == '\n' || c == '\r' || c == '\x0b' || c == '\x0c'

/-- Drop leading whitespace (left half of `String.prototype.trim`). -/
def ltrim (l : List Char) : List Char := l.dropWhile isWs

/-- Drop trailing whitespace (right half of `String.prototype.trim`). -/
def rtrim (l : List Char) : List Char := (l.reverse.dropWhile isWs).reverse

/-- `String.prototype.trim`. -/
def trim (l : List Char) : List Char := rtrim (ltrim l)

/-- The backtick character. -/
def tick : Char := "`".toList.headD ' '

/-- The fence marker. -/
def fence : List Char := [tick, tick, tick]

/-- The labeled fence opener matched by `startsWith('` + "```" + `json')`. -/
def jsonTag : List Char := fence ++ "json".toList

/-- `replace(/\s*` + "```" + `$/, '')`: the leftmost match of this anchored
regex is the final fence marker together with the maximal whitespace run
directly before it, so the replacement removes the last three characters
and then the trailing whitespace, and does nothing when the string does
not end in a fence marker. -/
def stripEnd (l : List Char) : List Char :=
  if l.reverse.take 3 = fence then
    ((l.reverse.drop 3).dropWhile isWs).reverse
  else l

/-- Lines 177-183: trim, then strip a leading `json`-labeled or unlabeled
fence opener together with the whitespace after it (`/^` + "```" + `json\s*/`
resp. `/^` + "```" + `\s*/`), then strip a trailing fence marker. -/
def sanitize (x : List Char) : List Char :=
  if (trim x).take 7 = jsonTag then stripEnd (ltrim ((trim x).drop 7))
  else if (trim x).take 3 = fence then stripEnd (ltrim ((trim x).drop 3))
  else trim x

/-- Values produced by `JSON.parse`. -/
inductive Json where
  | null
  | bool (b : Bool)
  | num (n : Int)
  | str (s : String)
  | arr (elems : List Json)
  | obj (fields : List (String × Json))

/-- `entry === null` (the only JSON value whose member access throws). -/
def isNull : Json → Bool
  | .null => true
  | _ => false

/-- JavaScript truthiness of a JSON value. -/
def jsTruthy : Json → Bool
  | .null => false
  | .bool b => b
  | .num n => !(n == 0)
  | .str s => !(s == "")
  | .arr _ => true
  | .obj _ => true

/-- Object member lookup; with duplicate keys `JSON.parse` keeps the last
occurrence, so the lookup prefers the rightmost binding. -/
def lookupField : List (String × Json) → String → Option Json
  | [], _ => none
  | (k', v) :: rest, k =>
    match lookupField rest k with
    | some w => some w
    | none => if k' == k then some v else none

/-- `value.key`: `undefined` (`none`) on primitives and missing keys. -/
def field : Json → String → Option Json
  | .obj fs, k => lookupField fs k
  | _, _ => none

/-- The `parsedData.Date` truthiness test of line 210. -/
def objDateTruthy (fs : List (String × Json)) : Bool :=
  match lookupField fs "Date" with
  | some v => jsTruthy v
  | none => false

/-- Shape dispatch of lines 191-230: an array is taken as the entry list
verbatim; a non-array is wrapped as a one-entry list when it is an object
with a truthy `Date`, and otherwise yields no entries. -/
def dispatch : Json → List Json
  | .arr l => l
  | .obj fs => if objDateTruthy fs then [Json.obj fs] else []
  | _ => []

/-- The per-entry logging loop of lines 194-209 accesses `entry.Date` on
every array element, which throws a `TypeError` exactly on `null`
elements. -/
def logThrows : Json → Bool
  | .arr l => l.any isNull
  | _ => false

/-- `x || ''` applied to a field value: keeps a truthy value, replaces a
falsy or absent one with the empty string (lines 67-76). -/
def orEmpty (v : Option Json) : Option Json :=
  some (match v with
        | some j => if jsTruthy j then j else Json.str ""
        | none => Json.str "")

/-- The sink's column order (lines 64-77). -/
def cols : List String :=
  ["Date", "Time", "Food", "KeyIngredients", "Drinks", "BowelCount",
   "BristolForm", "BowelUrgency", "Pain", "Stress", "Sleep", "Comments"]

/-- The 12-column row projection of lines 64-77.  `Date` and `Time` are
forwarded raw (possibly `undefined` = `none`); the ten optional columns
go through `x || ''`. -/
def rowOf (e : Json) : List (Option Json) :=
  [field e "Date", field e "Time",
   orEmpty (field e "Food"), orEmpty (field e "KeyIngredients"),
   orEmpty (field e "Drinks"), orEmpty (field e "BowelCount"),
   orEmpty (field e "BristolForm"), orEmpty (field e "BowelUrgency"),
   orEmpty (field e "Pain"), orEmpty (field e "Stress"),
   orEmpty (field e "Sleep"), orEmpty (field e "Comments")]

/-- Outcome of the OpenAI call: the capability may fail, or return the
response text (`output_text || '\x7b\x7d'` turns an empty answer into
`\x7b\x7d`). -/
inductive ModelResult where
  | err
  | ok (text : List Char)

/-- The two failure modes of `transformTranscriptWithAI`: the synchronous
missing-credential throw of line 103 and the model-failure rethrow of
line 155. -/
inductive TransformErr where
  | configErr
  | upstreamErr

/-- `transformTranscriptWithAI` (lines 99-157): reports whether the model
capability was invoked, and the raw text or the error thrown. -/
def transform (apiKey : List Char) (m : ModelResult) :
    Bool × Except TransformErr (List Char) :=
  if apiKey = [] then (false, Except.error TransformErr.configErr)
  else
    match m with
    | ModelResult.err => (true, Except.error TransformErr.upstreamErr)
    | ModelResult.ok t =>
      (true, Except.ok (if t = [] then "\x7b\x7d".toList else t))

/-- The external collaborators of one run: the OpenAI credential and
response, the behavior of `JSON.parse` (`none` = parse throws), and
whether the Google-Sheets append succeeds. -/
structure Caps where
  apiKey : List Char
  model : ModelResult
  jsParse : List Char → Option Json
  sinkOk : Bool

/-- The exceptions that can be raised inside the inner `try` of
lines 176-243: a `JSON.parse` throw, a member access on a `null` array
element, and the rethrown Google-Sheets failure of line 95. -/
inductive InnerErr where
  | parseErr
  | nullFieldAccess
  | sinkErr

/-- What happened inside the inner `try` before its exception (if any)
reached the catch of line 240. -/
structure InnerResult where
  appendInvoked : Bool
  batch : List Json
  rows : List (List (Option Json))
  err : Option InnerErr

/-- The body of the inner `try` (lines 176-238): sanitize, parse,
dispatch, log (which throws on `null` array elements), and append when
one or more entries resulted. -/
def innerPhase (raw : List Char) (c : Caps) : InnerResult :=
  match c.jsParse (sanitize raw) with
  | none => ⟨false, [], [], some InnerErr.parseErr⟩
  | some parsed =>
    if logThrows parsed then ⟨false, [], [], some InnerErr.nullFieldAccess⟩
    else
      let entries := dispatch parsed
      if entries.isEmpty then ⟨false, [], [], none⟩
      else
        ⟨true, entries, entries.map rowOf,
         if c.sinkOk then none else some InnerErr.sinkErr⟩

/-- Observable record of one `handleNoteCreated` run: which capabilities
were invoked, the entry batch and rows handed to the sink, and the raw
model output logged by the inner catch of lines 240-243 (if reached).
The function itself never rejects: both catches swallow their errors. -/
structure RunLog where
  modelInvoked : Bool
  appendInvoked : Bool
  batch : List Json
  rows : List (List (Option Json))
  loggedRaw : Option (List Char)

/-- `handleNoteCreated` (lines 159-249): the truthiness guard on
`data.transcript`, the outer `try` around the transform, and the inner
`try` around parse/dispatch/append whose catch logs the raw output. -/
def pipeline (transcript : Option (List Char)) (c : Caps) : RunLog :=
  match transcript with
  | none => ⟨false, false, [], [], none⟩
  | some t =>
    if t = [] then ⟨false, false, [], [], none⟩
    else
      match transform c.apiKey c.model with
      | (inv, Except.error _) => ⟨inv, false, [], [], none⟩
      | (inv, Except.ok raw) =>
        let r := innerPhase raw c
        match r.err with
        | some _ => ⟨inv, r.appendInvoked, r.batch, r.rows, some raw⟩
        | none => ⟨inv, r.appendInvoked, r.batch, r.rows, none⟩

/-! ### Claim C6: array outputs pass through unchanged -/

/-- C6 (confirmed): when the parsed model output is an array, the shape
dispatch returns exactly that array — same length, same order, every
element passed through with no per-element schema validation. -/
theorem parse_array_passthrough (l : List Json) :
    dispatch (Json.arr l) = l ∧ (dispatch (Json.arr l)).length = l.length :=
  ⟨rfl, rfl⟩

/-! ### Claim C7: single-object dispatch -/

/-- C7 counterexample: an object that does contain a `Date` field, with
the empty string as its value, yields no entries (the code tests
truthiness, not containment), contradicting the claim that any single
keyed object containing a date field becomes exactly one entry. -/
theorem object_with_empty_date_yields_no_entries :
    dispatch (Json.obj [("Date", Json.str "")]) = [] ∧
    ([] : List Json) ≠ [Json.obj [("Date", Json.str "")]] := by
  refine ⟨rfl, ?_⟩
  simp

/-- C7 (corrected): a single keyed object becomes exactly one entry equal
to the object itself precisely when its `Date` field is present and
truthy; every other non-array shape (null, empty object, object with an
absent or falsy date, number, string, boolean) yields an empty entry
list. -/
theorem parse_single_object_dispatch :
    (∀ (fs : List (String × Json)) (v : Json),
      lookupField fs "Date" = some v → jsTruthy v = true →
      dispatch (Json.obj fs) = [Json.obj fs]) ∧
    dispatch Json.null = [] ∧
    (∀ fs, objDateTruthy fs = false → dispatch (Json.obj fs) = []) ∧
    (∀ b, dispatch (Json.bool b) = []) ∧
    (∀ n, dispatch (Json.num n) = []) ∧
    (∀ s, dispatch (Json.str s) = []) := by
  refine ⟨?_, rfl, ?_, fun _ => rfl, fun _ => rfl, fun _ => rfl⟩
  · intro fs v hl ht
    have hd : objDateTruthy fs = true := by
      unfold objDateTruthy
      rw [hl]
      exact ht
    simp [dispatch, hd]
  · intro fs hd
    simp [dispatch, hd]

/-- C7 witness: the dispatch rules evaluated at a dated object and at an
object with a falsy date. -/
theorem parse_single_object_dispatch_witness :
    dispatch (Json.obj [("Date", Json.str "17/03/2025")]) =
      [Json.obj [("Date", Json.str "17/03/2025")]] ∧
    dispatch (Json.obj [("Time", Json.str "08:30")]) = [] :=
  ⟨parse_single_object_dispatch.1 _ (Json.str "17/03/2025") rfl rfl,
   parse_single_object_dispatch.2.2.1 _ rfl⟩

/-! ### Claim C1: no date/time validation before the sink -/

/-- C1 counterexample: a run in which the model output parses to an array
holding an entry with no `Date` field at all; the pipeline forwards that
entry to the append capability unchanged, so an entry missing a non-empty
`Date` does reach the sink. -/
theorem array_path_forwards_dateless_entry :
    (pipeline (some "hi".toList)
        ⟨"k".toList, ModelResult.ok "x".toList,
         fun _ => some (Json.arr [Json.obj [("Time", Json.str "08:30")]]),
         true⟩).batch = [Json.obj [("Time", Json.str "08:30")]] ∧
    (pipeline (some "hi".toList)
        ⟨"k".toList, ModelResult.ok "x".toList,
         fun _ => some (Json.arr [Json.obj [("Time", Json.str "08:30")]]),
         true⟩).appendInvoked = true ∧
    field (Json.obj [("Time", Json.str "08:30")]) "Date" = none :=
  ⟨rfl, rfl, rfl⟩

/-- C1 (corrected): the only date check before the sink is on the
single-object path — an object forwarded through it has a truthy `Date`
field.  Entries arriving through the array path are forwarded without any
`Date` or `Time` validation, and `Time` is checked on no path. -/
theorem singleObjectPath_requires_truthy_date (fs : List (String × Json))
    (h : dispatch (Json.obj fs) ≠ []) :
    dispatch (Json.obj fs) = [Json.obj fs] ∧
    ∃ v, lookupField fs "Date" = some v ∧ jsTruthy v = true := by
  by_cases hd : objDateTruthy fs = true
  · refine ⟨by simp [dispatch, hd], ?_⟩
    unfold objDateTruthy at hd
    cases hl : lookupField fs "Date" with
    | none => rw [hl] at hd; exact absurd hd (by simp)
    | some v => rw [hl] at hd; exact ⟨v, rfl, hd⟩
  · exact absurd (by simp [dispatch, hd] : dispatch (Json.obj fs) = []) h

/-- C1 witness: the single-object guarantee evaluated at a concrete dated
object. -/
theorem singleObjectPath_requires_truthy_date_witness :
    dispatch (Json.obj [("Date", Json.str "01/01/2025")]) =
      [Json.obj [("Date", Json.str "01/01/2025")]] ∧
    ∃ v, lookupField [("Date", Json.str "01/01/2025")] "Date" = some v ∧
      jsTruthy v = true :=
  singleObjectPath_requires_truthy_date [("Date", Json.str "01/01/2025")]
    (by simp [dispatch, objDateTruthy, lookupField, jsTruthy])

/-! ### Claim C2: empty or whitespace-only transcripts -/

/-- C2 counterexample: a transcript consisting of a single space is
nonempty, hence truthy, so the pipeline does invoke the language-model
capability, contradicting the claim for whitespace-only transcripts. -/
theorem whitespace_transcript_invokes_model :
    (" ".toList.all isWs = true) ∧ " ".toList ≠ [] ∧
    (pipeline (some " ".toList)
        ⟨"k".toList, ModelResult.ok "\x7b\x7d".toList,
         fun _ => some (Json.obj []), true⟩).modelInvoked = true :=
  ⟨rfl, by simp, rfl⟩

/-- C2 (corrected): only an absent or empty transcript is a no-op; for
those the pipeline appends nothing and invokes neither the language-model
capability nor the append capability.  (A whitespace-only but nonempty
transcript passes the truthiness guard and does invoke the model.) -/
theorem process_noop_on_empty_or_absent_transcript (c : Caps) :
    pipeline none c = ⟨false, false, [], [], none⟩ ∧
    pipeline (some []) c = ⟨false, false, [], [], none⟩ :=
  ⟨rfl, by simp [pipeline]⟩

/-! ### Claim C10: a present 0 is serialized as the empty string -/

/-- C10 (confirmed): in the row projection, a `BowelCount`, `BristolForm`
or `BowelUrgency` value of 0 is serialized as the empty string, exactly
like an absent or null field — the three cases are indistinguishable in
the appended row. -/
theorem zero_numeric_fields_serialize_empty (e : Json) :
    (field e "BowelCount" = some (Json.num 0) ∨
        field e "BowelCount" = some Json.null ∨
        field e "BowelCount" = none →
      (rowOf e).get? 5 = some (some (Json.str ""))) ∧
    (field e "BristolForm" = some (Json.num 0) ∨
        field e "BristolForm" = some Json.null ∨
        field e "BristolForm" = none →
      (rowOf e).get? 6 = some (some (Json.str ""))) ∧
    (field e "BowelUrgency" = some (Json.num 0) ∨
        field e "BowelUrgency" = some Json.null ∨
        field e "BowelUrgency" = none →
      (rowOf e).get? 7 = some (some (Json.str ""))) := by
  refine ⟨fun h => ?_, fun h => ?_, fun h => ?_⟩ <;>
    rcases h with h | h | h <;>
    simp [rowOf, h, orEmpty, jsTruthy]

/-- C10 witness: an entry recording zero bowel movements produces the
same (empty) cell as an entry with the field missing. -/
theorem zero_numeric_fields_serialize_empty_witness :
    (rowOf (Json.obj [("BowelCount", Json.num 0)])).get? 5 =
      some (some (Json.str "")) :=
  (zero_numeric_fields_serialize_empty
    (Json.obj [("BowelCount", Json.num 0)])).1 (Or.inl rfl)

/-! ### Whitespace/trim lemma kit for the sanitizer -/

/-- A backtick is not whitespace, so `dropWhile` stops at it. -/
theorem dw_cons_tick (w : List Char) :
    (tick :: w).dropWhile isWs = tick :: w :=
  List.dropWhile_cons_of_neg (by decide)

/-- `dropWhile` is idempotent. -/
theorem dw_idem (l : List Char) :
    (l.dropWhile isWs).dropWhile isWs = l.dropWhile isWs := by
  induction l with
  | nil => rfl
  | cons c t ih =>
    by_cases h : isWs c = true
    · rw [List.dropWhile_cons_of_pos h]; exact ih
    · rw [List.dropWhile_cons_of_neg h, List.dropWhile_cons_of_neg h]

/-- `dropWhile` removes some prefix. -/
theorem dw_eq_drop (l : List Char) : ∃ n, l.dropWhile isWs = l.drop n := by
  induction l with
  | nil => exact ⟨0, rfl⟩
  | cons c t ih =>
    by_cases h : isWs c = true
    · obtain ⟨n, hn⟩ := ih
      exact ⟨n + 1, by rw [List.dropWhile_cons_of_pos h, List.drop_succ_cons, hn]⟩
    · exact ⟨0, by rw [List.dropWhile_cons_of_neg h, List.drop_zero]⟩

/-- A `dropWhile`-fixed nonempty list starts with a non-whitespace
character. -/
theorem dw_head (l : List Char) (h : l.dropWhile isWs = l) :
    l = [] ∨ ∃ c t, l = c :: t ∧ isWs c = false := by
  cases l with
  | nil => exact Or.inl rfl
  | cons c t =>
    right
    refine ⟨c, t, rfl, ?_⟩
    by_cases hc : isWs c = true
    · exfalso
      rw [List.dropWhile_cons_of_pos hc] at h
      obtain ⟨n, hn⟩ := dw_eq_drop t
      rw [hn] at h
      have hlen := congrArg List.length h
      simp [List.length_drop] at hlen
      omega
    · simpa using hc

/-- Taking a front part of a `dropWhile`-fixed list keeps it fixed. -/
theorem dw_take (l : List Char) (m : Nat) (h : l.dropWhile isWs = l) :
    (l.take m).dropWhile isWs = l.take m := by
  rcases dw_head l h with rfl | ⟨c, t, rfl, hc⟩
  · simp
  · cases m with
    | zero => rfl
    | succ m =>
      rw [List.take_succ_cons, List.dropWhile_cons_of_neg (by simp [hc])]

/-- A list fixed by `dropWhile` on both ends is fixed by `trim`. -/
theorem trimmed_eq (y : List Char) (h1 : y.dropWhile isWs = y)
    (h2 : y.reverse.dropWhile isWs = y.reverse) : trim y = y := by
  unfold trim rtrim ltrim
  rw [h1, h2, List.reverse_reverse]

/-- `rtrim` preserves being fixed under left `dropWhile`. -/
theorem dw_rtrim (m : List Char) (h : m.dropWhile isWs = m) :
    (rtrim m).dropWhile isWs = rtrim m := by
  obtain ⟨n, hn⟩ := dw_eq_drop m.reverse
  unfold rtrim
  rw [hn, List.reverse_drop, List.reverse_reverse, List.length_reverse]
  exact dw_take _ _ h

/-- Dropping a prefix preserves being right-trimmed. -/
theorem dw_rev_drop (l : List Char) (k : Nat)
    (h : l.reverse.dropWhile isWs = l.reverse) :
    (l.drop k).reverse.dropWhile isWs = (l.drop k).reverse := by
  rw [List.reverse_drop]
  exact dw_take _ _ h

/-- `ltrim` preserves being right-trimmed. -/
theorem dw_rev_ltrim (l : List Char)
    (h : l.reverse.dropWhile isWs = l.reverse) :
    (ltrim l).reverse.dropWhile isWs = (ltrim l).reverse := by
  obtain ⟨n, hn⟩ := dw_eq_drop l
  unfold ltrim
  rw [hn]
  exact dw_rev_drop l n h

/-- `stripEnd` of a two-sided-trimmed list is again two-sided-trimmed. -/
theorem trim_stripEnd (z : List Char) (h1 : z.dropWhile isWs = z)
    (h2 : z.reverse.dropWhile isWs = z.reverse) :
    trim (stripEnd z) = stripEnd z := by
  unfold stripEnd
  by_cases hc : z.reverse.take 3 = fence
  · rw [if_pos hc]
    apply trimmed_eq
    · obtain ⟨n, hn⟩ := dw_eq_drop (z.reverse.drop 3)
      rw [hn]
      apply dw_rev_drop
      rw [List.reverse_drop, List.reverse_reverse, List.length_reverse]
      exact dw_take _ _ h1
    · rw [List.reverse_reverse]
      exact dw_idem _
  · rw [if_neg hc]
    exact trimmed_eq z h1 h2

/-- The output of `sanitize` carries no surrounding whitespace. -/
theorem trim_sanitize (x : List Char) : trim (sanitize x) = sanitize x := by
  have s1 : (trim x).dropWhile isWs = trim x := by
    unfold trim
    exact dw_rtrim _ (dw_idem x)
  have s2 : (trim x).reverse.dropWhile isWs = (trim x).reverse := by
    unfold trim rtrim
    rw [List.reverse_reverse]
    exact dw_idem _
  unfold sanitize
  by_cases h7 : (trim x).take 7 = jsonTag
  · rw [if_pos h7]
    exact trim_stripEnd _ (dw_idem _) (dw_rev_ltrim _ (dw_rev_drop _ 7 s2))
  · rw [if_neg h7]
    by_cases h3 : (trim x).take 3 = fence
    · rw [if_pos h3]
      exact trim_stripEnd _ (dw_idem _) (dw_rev_ltrim _ (dw_rev_drop _ 3 s2))
    · rw [if_neg h3]
      exact trimmed_eq _ s1 s2

/-- On an input that starts with no fence marker after trimming,
`sanitize` only trims. -/
theorem sanitize_of_unfenced (y : List Char) (h7 : (trim y).take 7 ≠ jsonTag)
    (h3 : (trim y).take 3 ≠ fence) : sanitize y = trim y := by
  unfold sanitize
  rw [if_neg h7, if_neg h3]

/-! ### Claim C4: idempotence of sanitize -/

/-- C4 counterexample: on a run of nine backticks one application of
`sanitize` yields a bare fence marker and a second application strips it
again, so `sanitize (sanitize x) = sanitize x` fails. -/
theorem sanitize_not_idem_on_nested_fences :
    sanitize (sanitize (List.replicate 9 tick)) ≠
      sanitize (List.replicate 9 tick) := by decide

/-- C4 (corrected): sanitizing twice equals sanitizing once for every
input whose sanitized form does not itself begin with a fence marker;
when one application's output again starts with a fence (nested or
degenerate fences), a second application strips further. -/
theorem sanitize_idem_when_result_unfenced (x : List Char)
    (h : (sanitize x).take 3 ≠ fence) :
    sanitize (sanitize x) = sanitize x := by
  have ht := trim_sanitize x
  have h3 : (trim (sanitize x)).take 3 ≠ fence := by rw [ht]; exact h
  have h7 : (trim (sanitize x)).take 7 ≠ jsonTag := by
    rw [ht]
    intro hc
    apply h
    have h33 : ((sanitize x).take 7).take 3 = (sanitize x).take 3 := by
      rw [List.take_take]
      norm_num
    rw [← h33, hc]
    rfl
  rw [sanitize_of_unfenced (sanitize x) h7 h3, ht]

/-- C4 witness: idempotence instantiated on an unfenced input. -/
theorem sanitize_idem_when_result_unfenced_witness :
    sanitize (sanitize "hello".toList) = sanitize "hello".toList :=
  sanitize_idem_when_result_unfenced "hello".toList (by decide)

/-! ### Claim C3: stripping fenced blocks -/

/-- A fenced block is already trimmed on both sides. -/
theorem trim_fenced (mid : List Char) :
    trim (tick :: tick :: tick :: (mid ++ [tick, tick, tick])) =
      tick :: tick :: tick :: (mid ++ [tick, tick, tick]) := by
  apply trimmed_eq
  · exact dw_cons_tick _
  · have hr : (tick :: tick :: tick :: (mid ++ [tick, tick, tick])).reverse =
        tick :: tick :: tick :: (mid.reverse ++ [tick, tick, tick]) := by
      simp
    rw [hr]
    exact dw_cons_tick _

/-- `ltrim` distributes over appending a closing fence. -/
theorem ltrim_append_fence (i : List Char) :
    ltrim (i ++ [tick, tick, tick]) = ltrim i ++ [tick, tick, tick] := by
  unfold ltrim
  rw [List.dropWhile_append]
  by_cases h : (i.dropWhile isWs).isEmpty = true
  · rw [if_pos h]
    rw [List.isEmpty_iff] at h
    rw [h, List.nil_append]
    exact dw_cons_tick _
  · rw [if_neg h]

/-- Stripping the trailing fence marker from `j ++ fence` right-trims the
interior `j`. -/
theorem stripEnd_append_fence (j : List Char) :
    stripEnd (j ++ [tick, tick, tick]) = rtrim j := by
  unfold stripEnd
  have hr : (j ++ [tick, tick, tick]).reverse =
      tick :: tick :: tick :: j.reverse := by
    simp
  rw [hr,
    if_pos (show (tick :: tick :: tick :: j.reverse).take 3 = fence from rfl)]
  rfl

/-- If the first four characters of the interior are not `json`, the
interior followed by a closing fence also does not start with `json`. -/
theorem take4_append_fence (i : List Char)
    (hi : i.take 4 ≠ "json".toList) :
    (i ++ [tick, tick, tick]).take 4 ≠ "json".toList := by
  intro hc
  apply hi
  rcases i with _ | ⟨a, _ | ⟨b, _ | ⟨c, _ | ⟨d, t⟩⟩⟩⟩
  · exact absurd hc (by decide)
  · exfalso
    injection hc with h1 hc1
    injection hc1 with h2 hc2
    exact absurd h2 (by decide)
  · exfalso
    injection hc with h1 hc1
    injection hc1 with h2 hc2
    injection hc2 with h3 hc3
    exact absurd h3 (by decide)
  · exfalso
    injection hc with h1 hc1
    injection hc1 with h2 hc2
    injection hc2 with h3 hc3
    injection hc3 with h4 hc4
    exact absurd h4 (by decide)
  · exact hc

/-- C3 counterexample: a fenced block labeled with the language tag `js`
(not `json`): the fence markers are removed but the tag itself is left in
the output, so the result is not the (trimmed) interior content. -/
theorem sanitize_leaves_other_language_tags :
    sanitize ("```js\n[]\n```".toList) = "js\n[]".toList ∧
    "js\n[]".toList ≠ trim ("\n[]\n".toList) :=
  ⟨by decide, by decide⟩

/-- C3 (corrected): for a fenced block whose fence is labeled exactly
`json`, or unlabeled with an interior that does not itself begin with
`json`, `sanitize` returns exactly the interior content with no fence
markers and no leading or trailing whitespace.  (A fence labeled with any
other language tag keeps the tag in the output.) -/
theorem sanitize_strips_json_or_unlabeled_fence (tag i : List Char)
    (h : tag = "json".toList ∨ (tag = [] ∧ i.take 4 ≠ "json".toList)) :
    sanitize (fence ++ tag ++ i ++ fence) = trim i := by
  rcases h with rfl | ⟨rfl, hi⟩
  · have hu : fence ++ "json".toList ++ i ++ fence =
        tick :: tick :: tick ::
          (('j' :: 's' :: 'o' :: 'n' :: i) ++ [tick, tick, tick]) := by
      simp [fence]
    rw [hu]
    unfold sanitize
    rw [trim_fenced ('j' :: 's' :: 'o' :: 'n' :: i),
      if_pos (show (tick :: tick :: tick ::
          (('j' :: 's' :: 'o' :: 'n' :: i) ++ [tick, tick, tick])).take 7 =
        jsonTag from rfl)]
    show stripEnd (ltrim (i ++ [tick, tick, tick])) = trim i
    rw [ltrim_append_fence, stripEnd_append_fence]
    rfl
  · have hu : fence ++ ([] : List Char) ++ i ++ fence =
        tick :: tick :: tick :: (i ++ [tick, tick, tick]) := by
      simp [fence]
    rw [hu]
    unfold sanitize
    rw [trim_fenced i]
    have h7 : (tick :: tick :: tick :: (i ++ [tick, tick, tick])).take 7 ≠
        jsonTag := by
      intro hc
      injection hc with g1 hc1
      injection hc1 with g2 hc2
      injection hc2 with g3 hc3
      exact take4_append_fence i hi hc3
    rw [if_neg h7,
      if_pos (show (tick :: tick :: tick ::
          (i ++ [tick, tick, tick])).take 3 = fence from rfl)]
    show stripEnd (ltrim (i ++ [tick, tick, tick])) = trim i
    rw [ltrim_append_fence, stripEnd_append_fence]
    rfl

/-- C3 witness: the amended statement evaluated on a `json`-labeled fence
around a newline-padded array. -/
theorem sanitize_strips_json_or_unlabeled_fence_witness :
    sanitize (fence ++ "json".toList ++ "\n[1]\n".toList ++ fence) =
      trim "\n[1]\n".toList :=
  sanitize_strips_json_or_unlabeled_fence "json".toList "\n[1]\n".toList
    (Or.inl rfl)

/-! ### Claim C8: parse failure degrades to zero entries -/

/-- C8 (confirmed): when the sanitized model output fails to parse, the
run ends with the model invoked, the append capability not invoked, no
batch and no rows, and the inner catch logging the offending raw model
output; no exception escapes the pipeline (it returns a normal log). -/
theorem parse_failure_degrades_to_zero_entries (t raw : List Char)
    (c : Caps) (ht : t ≠ [])
    (htr : transform c.apiKey c.model = (true, Except.ok raw))
    (hp : c.jsParse (sanitize raw) = none) :
    pipeline (some t) c = ⟨true, false, [], [], some raw⟩ := by
  have hin : innerPhase raw c = ⟨false, [], [], some InnerErr.parseErr⟩ := by
    unfold innerPhase
    rw [hp]
  simp only [pipeline, if_neg ht, htr, hin]

/-- C8 witness: a run whose model output does not parse. -/
theorem parse_failure_degrades_to_zero_entries_witness :
    pipeline (some "hi".toList)
        ⟨"k".toList, ModelResult.ok "nope".toList, fun _ => none, true⟩ =
      ⟨true, false, [], [], some "nope".toList⟩ :=
  parse_failure_degrades_to_zero_entries "hi".toList "nope".toList
    ⟨"k".toList, ModelResult.ok "nope".toList, fun _ => none, true⟩
    (by decide) rfl rfl

/-! ### Claim C5: sink failure does not propagate -/

/-- A concrete dated entry used in the sink-failure counterexample. -/
def e5 : Json := Json.obj [("Date", Json.str "01/01/2025")]

/-- C5 counterexample: a run in which the append capability fails.  The
inner phase raises the sink error, but the pipeline still returns a
normal log — with the raw model output logged by the very catch that
handles parse errors — so the sink failure is not surfaced to the
pipeline's caller, contradicting the claimed contrast with
transform/parse errors. -/
theorem sink_failure_swallowed_by_pipeline :
    (innerPhase "x".toList
        ⟨"k".toList, ModelResult.ok "x".toList,
         fun _ => some (Json.arr [e5]), false⟩).err =
      some InnerErr.sinkErr ∧
    pipeline (some "go".toList)
        ⟨"k".toList, ModelResult.ok "x".toList,
         fun _ => some (Json.arr [e5]), false⟩ =
      ⟨true, true, [e5], [rowOf e5], some "x".toList⟩ :=
  ⟨rfl, rfl⟩

/-- C5 (corrected): every error raised inside the inner phase — a parse
failure, a member access on a null element, or the append-capability
failure — is caught by the same inner catch: the pipeline returns a
normal log carrying the raw model output, and nothing propagates to the
caller. -/
theorem inner_errors_caught_and_logged (t raw : List Char) (c : Caps)
    (ht : t ≠ [])
    (htr : transform c.apiKey c.model = (true, Except.ok raw))
    (he : (innerPhase raw c).err.isSome = true) :
    pipeline (some t) c =
      ⟨true, (innerPhase raw c).appendInvoked, (innerPhase raw c).batch,
       (innerPhase raw c).rows, some raw⟩ := by
  obtain ⟨e, hee⟩ := Option.isSome_iff_exists.mp he
  simp only [pipeline, if_neg ht, htr, hee]

/-- C5 witness: the catch-all behavior instantiated on a run with a
failing sink. -/
theorem inner_errors_caught_and_logged_witness :
    pipeline (some "go".toList)
        ⟨"y".toList, ModelResult.ok "z".toList,
         fun _ => some (Json.arr [e5]), false⟩ =
      ⟨true,
       (innerPhase "z".toList
         ⟨"y".toList, ModelResult.ok "z".toList,
          fun _ => some (Json.arr [e5]), false⟩).appendInvoked,
       (innerPhase "z".toList
         ⟨"y".toList, ModelResult.ok "z".toList,
          fun _ => some (Json.arr [e5]), false⟩).batch,
       (innerPhase "z".toList
         ⟨"y".toList, ModelResult.ok "z".toList,
          fun _ => some (Json.arr [e5]), false⟩).rows,
       some "z".toList⟩ :=
  inner_errors_caught_and_logged "go".toList "z".toList
    ⟨"y".toList, ModelResult.ok "z".toList,
     fun _ => some (Json.arr [e5]), false⟩
    (by decide) rfl rfl

/-! ### Claim C9: the 12-column row projection -/

/-- The entry of end-to-end scenario 1. -/
def oatEntry : Json :=
  Json.obj [("Date", Json.str "17/03/2025"), ("Time", Json.str "08:30"),
            ("Food", Json.str "- Oatmeal"), ("Drinks", Json.str "- Coffee")]

/-- The raw model output of end-to-end scenario 1. -/
def oatRaw : List Char :=
  ("[\x7b\"Date\":\"17/03/2025\",\"Time\":\"08:30\"," ++
   "\"Food\":\"- Oatmeal\",\"Drinks\":\"- Coffee\"\x7d]").toList

/-- The single row of end-to-end scenario 1: Date, Time, Food, empty
KeyIngredients, Drinks, then seven empty columns. -/
def oatRow : List (Option Json) :=
  [some (Json.str "17/03/2025"), some (Json.str "08:30"),
   some (Json.str "- Oatmeal"), some (Json.str ""),
   some (Json.str "- Coffee"), some (Json.str ""), some (Json.str ""),
   some (Json.str ""), some (Json.str ""), some (Json.str ""),
   some (Json.str ""), some (Json.str "")]

/-- The collaborators of end-to-end scenario 1. -/
def oatCaps : Caps :=
  ⟨"k".toList, ModelResult.ok oatRaw, fun _ => some (Json.arr [oatEntry]),
   true⟩

/-- C9 (confirmed): each row handed to the sink is the fixed 12-column
projection of the entry in the order given by `cols` (Date and Time raw,
the ten optional columns through `x || ''`), absent or null optional
fields serialize to the empty string, and the scenario-1 run appends
exactly one row with columns `17/03/2025, 08:30, - Oatmeal, (empty),
- Coffee` and seven empty columns. -/
theorem append_row_projection :
    (∀ (e : Json) (i : Nat), i < 12 →
      (rowOf e).get? i =
        some (if i < 2 then field e (cols.getD i "")
              else orEmpty (field e (cols.getD i "")))) ∧
    (∀ v : Option Json, v = none ∨ v = some Json.null →
      orEmpty v = some (Json.str "")) ∧
    pipeline (some "Had oatmeal and coffee this morning".toList) oatCaps =
      ⟨true, true, [oatEntry], [oatRow], none⟩ := by
  refine ⟨?_, ?_, rfl⟩
  · intro e i hi
    interval_cases i <;> rfl
  · intro v hv
    rcases hv with rfl | rfl <;> rfl

/-- C9 witness: the projection rules evaluated at the scenario entry. -/
theorem append_row_projection_witness :
    (rowOf oatEntry).get? 0 =
      some (if 0 < 2 then field oatEntry (cols.getD 0 "")
            else orEmpty (field oatEntry (cols.getD 0 ""))) ∧
    orEmpty none = some (Json.str "") :=
  ⟨append_row_projection.1 oatEntry 0 (by decide),
   append_row_projection.2.1 none (Or.inl rfl)⟩
